import Mathlib

/-!
# Verification of `Singleton<T>` (src/Singleton.hpp)

The header defines one class template, `Singleton<T>`, with a single data member
`std::unique_ptr<T> m_instance`, a private constructor `Singleton(T&&)`, the static
member function `init(T&&)` whose body is a function-local static, and the accessor
`getInstance()`.

The embedding makes the C++ state explicit:

* the free store is a list of typed cells, an address is an index into it, and
  `operator new` throws `std::bad_alloc` when the store has no room left;
* every instantiation `Singleton<T>` has one function-local static inside `init`;
  the instantiations are indexed by a key type `K`, with `Ty k` the wrapped type;
* the move constructor `T(T&&)` belongs to the template argument, so it is a
  parameter of the model (`MoveCtor`): it says which object is built from the
  source, or that the constructor exits by an exception, and in which state the
  source is left;
* a call ends by returning or by an exception (`Result`): when the initializer of
  the function-local static exits by an exception the static stays unconstructed,
  the exception leaves `init`, and the next call runs the initializer again.

Execution is sequential.
-/

namespace SingletonModel

/-- A raw pointer `T*`: `none` is `nullptr`, `some a` is the address of the
free-store cell number `a`. -/
abbrev Ptr := Option Nat

/-- How an evaluation ends: it returns a value, or it exits by an exception. -/
inductive Result (α : Type) where
  | returned (val : α)
  | raised
deriving DecidableEq, Repr

/-- The move constructor `T(T&&)` of the wrapped type. `built t` is the value of the
newly constructed object when the source holds `t`, `none` when the constructor exits
by an exception, and `residue t` is the value the source object is left with. A type
that has no move constructor and falls back to its copy constructor has
`residue t = t`. -/
structure MoveCtor (T : Type) where
  built : T → Option T
  residue : T → T

/-- The class `Singleton<T>`: its only data member is
`std::unique_ptr<T> m_instance`, represented by the address it owns. -/
structure Singleton where
  m_instance : Ptr
deriving DecidableEq, Repr

/-- The member function `T *getInstance() { return m_instance.get(); }`. -/
def Singleton.getInstance (self : Singleton) : Ptr :=
  self.m_instance

/-- The part of the process state the header touches. `heap` is the free store
(address `a` holds `heap[a]`, a value tagged with the key of its type), `statics k` is
the function-local static `Singleton<T> Singleton` declared inside
`Singleton<T>::init` for `T = Ty k` (`none` until its guarded construction has
completed), and `room` is the number of objects `operator new` can still provide. -/
structure World {K : Type} (Ty : K → Type) where
  heap : List (Sigma Ty)
  statics : K → Option Singleton
  room : Nat

section Operations

variable {K : Type} [DecidableEq K] {Ty : K → Type}

/-- The state of a process at start-up: nothing allocated, no static constructed,
room for `room` objects in the free store. -/
def World.empty (room : Nat) : World Ty :=
  ⟨[], fun _ => none, room⟩

/-- Reading `*p` at type `Ty k`: defined when `p` is the address of a live cell
holding an object of that type. -/
def World.load (w : World Ty) (k : K) (p : Ptr) : Option (Ty k) :=
  match p with
  | none => none
  | some a =>
    match w.heap[a]? with
    | none => none
    | some c => if h : c.1 = k then some (h ▸ c.2) else none

/-- The assignment `*p = v` at type `Ty k`: defined when `p` is the address of a
live cell holding an object of that type. -/
def World.store (w : World Ty) (k : K) (p : Ptr) (v : Ty k) : Option (World Ty) :=
  match p with
  | none => none
  | some a =>
    match w.heap[a]? with
    | none => none
    | some c => if c.1 = k then some ⟨w.heap.set a ⟨k, v⟩, w.statics, w.room⟩ else none

/-- The expression `std::make_unique<T>(std::move(t))`, that is `new T(std::move(t))`
wrapped in a `unique_ptr`. With no room left `operator new` throws and `t` is not
touched. Otherwise the move constructor of `T` runs on `t`: if it exits by an
exception the storage is released and the exception propagates, else the fresh cell
holds the object it built. The result is the owning pointer or the exception, the
value `t` is left with, the free store and the room after the evaluation. -/
def make_unique (k : K) (mc : MoveCtor (Ty k)) (t : Ty k) (heap : List (Sigma Ty))
    (room : Nat) : Result Ptr × Ty k × List (Sigma Ty) × Nat :=
  match room with
  | 0 => (Result.raised, t, heap, 0)
  | n + 1 =>
    match mc.built t with
    | none => (Result.raised, mc.residue t, heap, n + 1)
    | some b => (Result.returned (some heap.length), mc.residue t, heap ++ [⟨k, b⟩], n)

/-- The private constructor
`Singleton(T &&t) : m_instance(std::make_unique<T>(std::move(t))) {}`.
An exception of the member initializer leaves the constructor. The result is the
constructed object or the exception, the value `t` is left with, the free store and
the room after the construction. -/
def Singleton.ctor (k : K) (mc : MoveCtor (Ty k)) (t : Ty k) (heap : List (Sigma Ty))
    (room : Nat) : Result Singleton × Ty k × List (Sigma Ty) × Nat :=
  let r := make_unique k mc t heap room
  match r.1 with
  | Result.returned p => (Result.returned ⟨p⟩, r.2)
  | Result.raised => (Result.raised, r.2)

/-- The static member function
`static Singleton &init(T &&obj) { static Singleton<T> Singleton{std::move(obj)}; return Singleton; }`.
The initializer of the function-local static runs only while the static is not yet
constructed. When it completes, the static is constructed and `init` returns the
reference to it (the static of the instantiation `k`, the only `Singleton<T>` object
that can exist, every other constructor being deleted or private). When it exits by an
exception, the static stays unconstructed and the exception leaves `init`, so the next
call runs the initializer again. The result is the returned reference or the
exception, the value the argument object `obj` is left with, and the state after the
call. -/
def init (mc : (k : K) → MoveCtor (Ty k)) (k : K) (obj : Ty k) (w : World Ty) :
    Result K × Ty k × World Ty :=
  match w.statics k with
  | some _ => (Result.returned k, obj, w)
  | none =>
    let r := Singleton.ctor k (mc k) obj w.heap w.room
    match r.1 with
    | Result.returned s =>
      (Result.returned k, r.2.1, ⟨r.2.2.1, Function.update w.statics k (some s), r.2.2.2⟩)
    | Result.raised => (Result.raised, r.2.1, ⟨r.2.2.1, w.statics, r.2.2.2⟩)

/-- Calling `getInstance()` through a reference `r` to a holder: defined when the
holder the reference designates has been constructed. -/
def World.getInstance (w : World Ty) (r : K) : Option Ptr :=
  (w.statics r).map Singleton.getInstance

/-- The wrapped value of the holder of `Ty k`, read through `getInstance()`. -/
def World.wrapped (w : World Ty) (k : K) : Option (Ty k) :=
  (w.getInstance k).bind (w.load k)

end Operations

section Programs

variable {K : Type} [DecidableEq K] {Ty : K → Type}

/-- One action of client code on the holders: a call `Singleton<T>::init(std::move(obj))`,
a call `getInstance()` on the holder of `Ty k`, or an assignment `*p = v` through the
pointer `p` that `getInstance()` of the holder of `Ty k` returns. -/
inductive Op {K : Type} (Ty : K → Type) where
  | init (k : K) (obj : Ty k)
  | getInstance (k : K)
  | write (k : K) (v : Ty k)

/-- What an action hands back to client code: for an `init` that returns, the returned
reference together with the value the argument object is left with; for an `init` that
exits by an exception (which the client catches), the value the argument object is left
with; for `getInstance` the returned pointer; for an assignment nothing. -/
inductive Ret {K : Type} (Ty : K → Type) where
  | holder (ref : K) (k : K) (obj : Ty k)
  | raised (k : K) (obj : Ty k)
  | pointer (p : Ptr)
  | done

/-- The instantiation an action addresses. -/
def Op.key : Op Ty → K
  | Op.init k _ => k
  | Op.getInstance k => k
  | Op.write k _ => k

/-- The action is a call of `init` or of `getInstance` for the instantiation `k`. -/
def Op.onHolder (k : K) : Op Ty → Bool
  | Op.init j _ => decide (j = k)
  | Op.getInstance j => decide (j = k)
  | Op.write _ _ => false

/-- One action executed on a state. An exception that leaves `init` is caught by the
client, which goes on. `getInstance()` needs a holder to be called on, and a reference
to a holder only comes out of an `init` that returned, so the action is undefined while
the static of that instantiation is not constructed; the assignment through the
returned pointer is undefined when the pointer cannot be dereferenced. -/
def step (mc : (k : K) → MoveCtor (Ty k)) : Op Ty → World Ty → Option (Ret Ty × World Ty)
  | Op.init k obj, w =>
    let r := init mc k obj w
    match r.1 with
    | Result.returned ref => some (Ret.holder ref k r.2.1, r.2.2)
    | Result.raised => some (Ret.raised k r.2.1, r.2.2)
  | Op.getInstance k, w => (w.getInstance k).map (fun p => (Ret.pointer p, w))
  | Op.write k v, w =>
    ((w.getInstance k).bind (fun p => w.store k p v)).map (fun w' => (Ret.done, w'))

/-- A sequence of actions executed in order: the result and the state after each. -/
def trace (mc : (k : K) → MoveCtor (Ty k)) : List (Op Ty) → World Ty →
    Option (List (Ret Ty × World Ty))
  | [], _ => some []
  | c :: cs, w =>
    match step mc c w with
    | none => none
    | some x => (trace mc cs x.2).map (fun tl => x :: tl)

/-- The state a sequence of actions ends in. -/
def exec (mc : (k : K) → MoveCtor (Ty k)) : List (Op Ty) → World Ty → Option (World Ty)
  | [], w => some w
  | c :: cs, w =>
    match step mc c w with
    | none => none
    | some x => exec mc cs x.2

/-- The holder of `Ty k` is in the state Initialized. -/
def World.constructed (w : World Ty) (k : K) : Bool :=
  (w.statics k).isSome

/-- Number of transitions Uninitialized → Initialized of the holder of `Ty k` along
the successive states `ws` that follow the state `w`. -/
def constructions (k : K) : World Ty → List (World Ty) → Nat
  | _, [] => 0
  | w, w' :: ws =>
    (if w.constructed k = false ∧ w'.constructed k = true then 1 else 0)
      + constructions k w' ws

/-- What an action on the holder of `Ty k` returns once that holder is `s`. -/
def settledRet (s : Singleton) : Op Ty → Ret Ty
  | Op.init j obj => Ret.holder j j obj
  | Op.getInstance _ => Ret.pointer s.getInstance
  | Op.write _ _ => Ret.done

/-- Every constructed holder owns the address of a live cell that holds an object of
its wrapped type. -/
def World.WF (w : World Ty) : Prop :=
  ∀ k s, w.statics k = some s → ∃ a c, s.m_instance = some a ∧ w.heap[a]? = some c ∧ c.1 = k

end Programs

section Fixtures

/-- A wrapped type with observable move effects: a payload and a marker that is set
on an object that has been moved from. -/
structure Tracked where
  payload : Nat
  moved : Bool
deriving DecidableEq, Repr

/-- The move constructor of `Tracked`: the new object takes the payload and is not
marked, the source is marked as moved from. -/
def Tracked.moveCtor : MoveCtor Tracked :=
  ⟨fun t => some ⟨t.payload, false⟩, fun t => ⟨t.payload, true⟩⟩

/-- The wrapped types used in the examples. -/
inductive DemoKey where
  | int
  | tracked
  | thrower
  | bump
deriving DecidableEq, Repr

/-- The instantiations `Singleton<int>`, `Singleton<Tracked>`, `Singleton<Thrower>` and
`Singleton<Bump>`; the last two wrap an `int`. -/
@[reducible] def demoTy : DemoKey → Type
  | DemoKey.int => Nat
  | DemoKey.tracked => Tracked
  | DemoKey.thrower => Nat
  | DemoKey.bump => Nat

/-- The move constructors of the wrapped types. Moving an `int` copies it; the move
constructor of `Thrower` throws when its source holds `0` and copies otherwise; the move
constructor of `Bump` builds an object holding one more than its source. -/
def demoMove : (k : DemoKey) → MoveCtor (demoTy k)
  | DemoKey.int => ⟨fun n => some n, fun n => n⟩
  | DemoKey.tracked => Tracked.moveCtor
  | DemoKey.thrower => ⟨fun n => if n = 0 then none else some n, fun n => n⟩
  | DemoKey.bump => ⟨fun n => some (n + 1), fun n => n⟩

/-- The state after `Singleton<int>::init(3)` and `Singleton<Tracked>::init({7, false})`
from start-up. -/
def demoWorld : World demoTy :=
  (init demoMove DemoKey.tracked (⟨7, false⟩ : Tracked)
    (init demoMove DemoKey.int (3 : Nat) (World.empty 8)).2.2).2.2

/-- A program that constructs both holders from start-up. -/
def demoCalls : List (Op demoTy) :=
  [Op.init DemoKey.int (3 : Nat), Op.init DemoKey.tracked (⟨7, false⟩ : Tracked)]

/-- Calls on the holder of `Thrower` that follow the first `init` that returned. -/
def demoThrowerRest : List (Op demoTy) :=
  [Op.getInstance DemoKey.thrower, Op.init DemoKey.thrower (0 : Nat),
    Op.getInstance DemoKey.thrower]

end Fixtures

theorem demoWorld_exec : exec demoMove demoCalls (World.empty 8) = some demoWorld := by
  rfl

theorem demoCalls_split :
    ∃ cs1 v cs2 wa, demoCalls = cs1 ++ Op.init DemoKey.tracked v :: cs2 ∧
      exec demoMove cs1 (World.empty 8) = some wa ∧
      (init demoMove DemoKey.tracked v wa).1 = Result.returned DemoKey.tracked :=
  ⟨[Op.init DemoKey.int (3 : Nat)], (⟨7, false⟩ : Tracked), [],
    (init demoMove DemoKey.int (3 : Nat) (World.empty 8)).2.2, rfl, rfl, rfl⟩

theorem WF_empty {K : Type} {Ty : K → Type} (room : Nat) :
    (World.empty room : World Ty).WF := by
  intro k s hs
  simp [World.empty] at hs

theorem constructions_settled {K : Type} {Ty : K → Type} (k : K) (w : World Ty)
    (ws : List (World Ty))
    (hw : w.constructed k = true) (hws : ∀ x ∈ ws, x = w) :
    constructions k w ws = 0 := by
  induction ws with
  | nil => rfl
  | cons x xs ih =>
    have hx : x = w := hws x (List.mem_cons_self x xs)
    subst hx
    have ih' := ih (fun y hy => hws y (List.mem_cons_of_mem x hy))
    simp [constructions, hw, ih']

theorem constructions_stutter {K : Type} {Ty : K → Type} (k : K) (w : World Ty)
    (l ws : List (World Ty)) (hl : ∀ x ∈ l, x = w) :
    constructions k w (l ++ ws) = constructions k w ws := by
  induction l with
  | nil => rfl
  | cons x xs ih =>
    have hx : x = w := hl x (List.mem_cons_self x xs)
    subst hx
    have ih' := ih (fun y hy => hl y (List.mem_cons_of_mem x hy))
    simp [constructions, ih']

section Basic

variable {K : Type} [DecidableEq K] {Ty : K → Type}

theorem init_again (mc : (k : K) → MoveCtor (Ty k)) (k : K) (obj : Ty k) (w : World Ty)
    (s : Singleton) (h : w.statics k = some s) :
    init mc k obj w = (Result.returned k, obj, w) := by
  simp [init, h]

theorem init_fresh (mc : (k : K) → MoveCtor (Ty k)) (k : K) (obj : Ty k) (w : World Ty)
    (n : Nat) (b : Ty k) (h : w.statics k = none) (hroom : w.room = n + 1)
    (hb : (mc k).built obj = some b) :
    init mc k obj w =
      (Result.returned k, (mc k).residue obj,
        ⟨w.heap ++ [⟨k, b⟩],
          Function.update w.statics k (some ⟨some w.heap.length⟩), n⟩) := by
  simp [init, h, Singleton.ctor, make_unique, hroom, hb]

theorem init_nomem (mc : (k : K) → MoveCtor (Ty k)) (k : K) (obj : Ty k) (w : World Ty)
    (h : w.statics k = none) (hroom : w.room = 0) :
    init mc k obj w = (Result.raised, obj, w) := by
  cases w with
  | mk heap statics room =>
    simp at h hroom
    subst hroom
    simp [init, h, Singleton.ctor, make_unique]

theorem init_throw (mc : (k : K) → MoveCtor (Ty k)) (k : K) (obj : Ty k) (w : World Ty)
    (n : Nat) (h : w.statics k = none) (hroom : w.room = n + 1)
    (hb : (mc k).built obj = none) :
    init mc k obj w = (Result.raised, (mc k).residue obj, w) := by
  cases w with
  | mk heap statics room =>
    simp at h hroom
    subst hroom
    simp [init, h, Singleton.ctor, make_unique, hb]

theorem init_cases (mc : (k : K) → MoveCtor (Ty k)) (k : K) (obj : Ty k) (w : World Ty) :
    (w.statics k = none ∧ ∃ t, init mc k obj w = (Result.raised, t, w)) ∨
    (∃ s, w.statics k = some s ∧ init mc k obj w = (Result.returned k, obj, w)) ∨
    (w.statics k = none ∧ ∃ n b, w.room = n + 1 ∧ (mc k).built obj = some b ∧
      init mc k obj w =
        (Result.returned k, (mc k).residue obj,
          ⟨w.heap ++ [⟨k, b⟩],
            Function.update w.statics k (some ⟨some w.heap.length⟩), n⟩)) := by
  cases h : w.statics k with
  | some s => exact Or.inr (Or.inl ⟨s, rfl, init_again mc k obj w s h⟩)
  | none =>
    cases hr : w.room with
    | zero => exact Or.inl ⟨rfl, obj, init_nomem mc k obj w h hr⟩
    | succ n =>
      cases hb : (mc k).built obj with
      | none => exact Or.inl ⟨rfl, (mc k).residue obj, init_throw mc k obj w n h hr hb⟩
      | some b => exact Or.inr (Or.inr ⟨rfl, n, b, rfl, rfl, init_fresh mc k obj w n b h hr hb⟩)

theorem init_raised (mc : (k : K) → MoveCtor (Ty k)) (k : K) (obj : Ty k) (w : World Ty)
    (h : (init mc k obj w).1 = Result.raised) :
    w.statics k = none ∧ (init mc k obj w).2.2 = w := by
  rcases init_cases mc k obj w with ⟨h0, t, ht⟩ | ⟨s, _, hs⟩ | ⟨_, n, b, _, _, hf⟩
  · exact ⟨h0, by rw [ht]⟩
  · rw [hs] at h
    cases h
  · rw [hf] at h
    cases h

theorem init_returned (mc : (k : K) → MoveCtor (Ty k)) (k : K) (obj : Ty k) (w : World Ty)
    (h0 : w.statics k = none) (h : (init mc k obj w).1 = Result.returned k) :
    ∃ n b, w.room = n + 1 ∧ (mc k).built obj = some b ∧
      init mc k obj w =
        (Result.returned k, (mc k).residue obj,
          ⟨w.heap ++ [⟨k, b⟩],
            Function.update w.statics k (some ⟨some w.heap.length⟩), n⟩) := by
  rcases init_cases mc k obj w with ⟨_, t, ht⟩ | ⟨s, hs, _⟩ | ⟨_, n, b, hr, hb, hf⟩
  · rw [ht] at h
    cases h
  · rw [h0] at hs
    cases hs
  · exact ⟨n, b, hr, hb, hf⟩

theorem load_fresh (k : K) (b : Ty k) (heap : List (Sigma Ty)) (st : K → Option Singleton)
    (n : Nat) :
    (World.mk (heap ++ [⟨k, b⟩]) st n).load k (some heap.length) = some b := by
  simp [World.load]

theorem wrapped_fresh (k : K) (b : Ty k) (w : World Ty) (n : Nat) :
    (World.mk (w.heap ++ [⟨k, b⟩])
      (Function.update w.statics k (some ⟨some w.heap.length⟩)) n).wrapped k = some b := by
  simp [World.wrapped, World.getInstance, Singleton.getInstance, World.load]

theorem step_init_world (mc : (k : K) → MoveCtor (Ty k)) (k : K) (obj : Ty k) (w : World Ty)
    (r : Ret Ty) (w' : World Ty) (h : step mc (Op.init k obj) w = some (r, w')) :
    w' = (init mc k obj w).2.2 := by
  simp only [step] at h
  split at h <;> simp at h <;> exact h.2.symm

theorem step_init_returned (mc : (k : K) → MoveCtor (Ty k)) (k : K) (obj : Ty k)
    (w : World Ty) (h : (init mc k obj w).1 = Result.returned k) :
    step mc (Op.init k obj) w
      = some (Ret.holder k k (init mc k obj w).2.1, (init mc k obj w).2.2) := by
  simp [step, h]

theorem step_init_raised (mc : (k : K) → MoveCtor (Ty k)) (k : K) (obj : Ty k)
    (w : World Ty) (h : (init mc k obj w).1 = Result.raised) :
    step mc (Op.init k obj) w = some (Ret.raised k (init mc k obj w).2.1, w) := by
  simp [step, h, (init_raised mc k obj w h).2]

theorem step_init_again (mc : (k : K) → MoveCtor (Ty k)) (k : K) (obj : Ty k) (w : World Ty)
    (s : Singleton) (h : w.statics k = some s) :
    step mc (Op.init k obj) w = some (Ret.holder k k obj, w) := by
  simp [step, init_again mc k obj w s h]

theorem step_getInstance (mc : (k : K) → MoveCtor (Ty k)) (k : K) (w : World Ty)
    (s : Singleton) (h : w.statics k = some s) :
    step mc (Op.getInstance k) w = some (Ret.pointer s.getInstance, w) := by
  simp [step, World.getInstance, h]

theorem trace_settled (mc : (k : K) → MoveCtor (Ty k)) (k : K) (s : Singleton)
    (rest : List (Op Ty)) (w : World Ty) (hs : w.statics k = some s)
    (hrest : ∀ c ∈ rest, c.onHolder k = true) :
    trace mc rest w = some (rest.map (fun c => (settledRet s c, w))) := by
  induction rest with
  | nil => rfl
  | cons c cs ih =>
    have hc := hrest c (List.mem_cons_self c cs)
    have ih' := ih (fun d hd => hrest d (List.mem_cons_of_mem c hd))
    cases c with
    | init j obj =>
      have hj : j = k := by simpa [Op.onHolder] using hc
      subst hj
      simp [trace, step_init_again mc j obj w s hs, ih', settledRet]
    | getInstance j =>
      have hj : j = k := by simpa [Op.onHolder] using hc
      subst hj
      simp [trace, step_getInstance mc j w s hs, ih', settledRet]
    | write j v => simp [Op.onHolder] at hc

theorem trace_raised (mc : (k : K) → MoveCtor (Ty k)) (k : K) (w : World Ty)
    (pre : List (Ty k)) (hpre : ∀ u ∈ pre, (init mc k u w).1 = Result.raised)
    (cs : List (Op Ty)) :
    trace mc (pre.map (Op.init k) ++ cs) w =
      (trace mc cs w).map
        (fun tl => pre.map (fun u => (Ret.raised k (init mc k u w).2.1, w)) ++ tl) := by
  induction pre with
  | nil => simp
  | cons u us ih =>
    have hu := hpre u (List.mem_cons_self u us)
    have ih' := ih (fun d hd => hpre d (List.mem_cons_of_mem u hd))
    simp only [List.map_cons, List.cons_append, trace, step_init_raised mc k u w hu,
      List.append_eq]
    rw [ih']
    cases trace mc cs w <;> simp

theorem step_write_some (mc : (k : K) → MoveCtor (Ty k)) (k : K) (v : Ty k) (w : World Ty)
    (r : Ret Ty) (w' : World Ty) (h : step mc (Op.write k v) w = some (r, w')) :
    ∃ p, w.getInstance k = some p ∧ w.store k p v = some w' := by
  cases hg : w.getInstance k with
  | none => simp [step, hg] at h
  | some p =>
    cases hp : w.store k p v with
    | none => simp [step, hg, hp] at h
    | some w2 =>
      simp [step, hg, hp] at h
      exact ⟨p, rfl, by rw [hp, h.2]⟩

theorem WF_init (mc : (k : K) → MoveCtor (Ty k)) (k : K) (obj : Ty k) (w : World Ty)
    (hw : w.WF) : (init mc k obj w).2.2.WF := by
  rcases init_cases mc k obj w with ⟨_, t, ht⟩ | ⟨s, _, hs⟩ | ⟨_, n, b, _, _, hf⟩
  · rw [ht]
    exact hw
  · rw [hs]
    exact hw
  · rw [hf]
    intro j s hs
    by_cases hj : j = k
    · subst hj
      simp at hs
      subst hs
      exact ⟨w.heap.length, ⟨j, b⟩, rfl, by simp, rfl⟩
    · simp [Function.update_noteq hj] at hs
      obtain ⟨a, c, ha, hc, hk⟩ := hw j s hs
      have hlt : a < w.heap.length := (List.getElem?_eq_some.mp hc).1
      exact ⟨a, c, ha, by simp [List.getElem?_append_left hlt, hc], hk⟩

theorem store_eq_some (w : World Ty) (k : K) (p : Ptr) (v : Ty k) (w' : World Ty)
    (h : w.store k p v = some w') :
    ∃ a c, p = some a ∧ w.heap[a]? = some c ∧ c.1 = k ∧
      w' = ⟨w.heap.set a ⟨k, v⟩, w.statics, w.room⟩ := by
  cases p with
  | none => simp [World.store] at h
  | some a =>
    cases hc : w.heap[a]? with
    | none => simp [World.store, hc] at h
    | some c =>
      by_cases hk : c.1 = k
      · simp [World.store, hc, hk] at h
        exact ⟨a, c, rfl, hc, hk, h.symm⟩
      · simp [World.store, hc, hk] at h

theorem WF_store (w : World Ty) (k : K) (p : Ptr) (v : Ty k) (w' : World Ty) (hw : w.WF)
    (h : w.store k p v = some w') : w'.WF := by
  obtain ⟨a, c, _, hc, hk, rfl⟩ := store_eq_some w k p v w' h
  intro j s hs
  obtain ⟨b, d, hb, hd, hj⟩ := hw j s hs
  have hlt : a < w.heap.length := (List.getElem?_eq_some.mp hc).1
  by_cases hab : a = b
  · subst hab
    have hcd : c = d := by
      rw [hc] at hd
      exact Option.some.inj hd
    subst hcd
    exact ⟨a, ⟨k, v⟩, hb, by simp [List.getElem?_set_self, hlt], hk.symm.trans hj⟩
  · exact ⟨b, d, hb, by simp [List.getElem?_set_ne hab, hd], hj⟩

theorem WF_step (mc : (k : K) → MoveCtor (Ty k)) (c : Op Ty) (w : World Ty) (r : Ret Ty)
    (w' : World Ty) (hw : w.WF) (h : step mc c w = some (r, w')) : w'.WF := by
  cases c with
  | init k obj =>
    rw [step_init_world mc k obj w r w' h]
    exact WF_init mc k obj w hw
  | getInstance k =>
    simp [step] at h
    obtain ⟨_, _, _, rfl⟩ := h
    exact hw
  | write k v =>
    obtain ⟨p, _, hp⟩ := step_write_some mc _ v w r w' h
    exact WF_store w k p v w' hw hp

theorem WF_exec (mc : (k : K) → MoveCtor (Ty k)) (cs : List (Op Ty)) (w w' : World Ty)
    (hw : w.WF) (h : exec mc cs w = some w') : w'.WF := by
  induction cs generalizing w with
  | nil =>
    simp [exec] at h
    exact h ▸ hw
  | cons c cs ih =>
    cases hs : step mc c w with
    | none => simp [exec, hs] at h
    | some x =>
      simp [exec, hs] at h
      exact ih x.2 (WF_step mc c w x.1 x.2 hw hs) h

theorem exec_append (mc : (k : K) → MoveCtor (Ty k)) (cs1 cs2 : List (Op Ty))
    (w : World Ty) :
    exec mc (cs1 ++ cs2) w = (exec mc cs1 w).bind (exec mc cs2) := by
  induction cs1 generalizing w with
  | nil => simp [exec]
  | cons c cs ih =>
    cases hs : step mc c w with
    | none => simp [exec, hs]
    | some x => simp [exec, hs, ih]

theorem statics_init (mc : (k : K) → MoveCtor (Ty k)) (j : K) (obj : Ty j) (w : World Ty)
    (k : K) (s : Singleton) (hk : w.statics k = some s) :
    (init mc j obj w).2.2.statics k = some s := by
  rcases init_cases mc j obj w with ⟨_, t, ht⟩ | ⟨s', _, hs⟩ | ⟨hj, n, b, _, _, hf⟩
  · rw [ht]
    exact hk
  · rw [hs]
    exact hk
  · rw [hf]
    have hne : k ≠ j := by
      intro e
      subst e
      rw [hk] at hj
      cases hj
    simp [Function.update_noteq hne, hk]

theorem statics_step (mc : (k : K) → MoveCtor (Ty k)) (c : Op Ty) (w : World Ty) (r : Ret Ty)
    (w' : World Ty) (k : K) (s : Singleton) (hk : w.statics k = some s)
    (h : step mc c w = some (r, w')) : w'.statics k = some s := by
  cases c with
  | init j obj =>
    rw [step_init_world mc j obj w r w' h]
    exact statics_init mc j obj w k s hk
  | getInstance j =>
    simp [step] at h
    obtain ⟨_, _, _, rfl⟩ := h
    exact hk
  | write j v =>
    obtain ⟨p, _, hp⟩ := step_write_some mc _ v w r w' h
    obtain ⟨_, _, _, _, _, rfl⟩ := store_eq_some w j p v w' hp
    exact hk

theorem constructed_exec (mc : (k : K) → MoveCtor (Ty k)) (cs : List (Op Ty))
    (w w' : World Ty) (k : K) (h : exec mc cs w = some w')
    (hk : w.constructed k = true) : w'.constructed k = true := by
  induction cs generalizing w with
  | nil =>
    simp [exec] at h
    subst h
    exact hk
  | cons c cs ih =>
    cases hs : step mc c w with
    | none => simp [exec, hs] at h
    | some x =>
      simp [exec, hs] at h
      apply ih x.2 h
      obtain ⟨s, hs'⟩ := Option.isSome_iff_exists.mp hk
      simp [World.constructed, statics_step mc c w x.1 x.2 k s hs' hs]

theorem init_returned_constructed (mc : (k : K) → MoveCtor (Ty k)) (k : K) (obj : Ty k)
    (w : World Ty) (h : (init mc k obj w).1 = Result.returned k) :
    (init mc k obj w).2.2.constructed k = true := by
  rcases init_cases mc k obj w with ⟨_, t, ht⟩ | ⟨s, hs0, hs⟩ | ⟨_, n, b, _, _, hf⟩
  · rw [ht] at h
    cases h
  · rw [hs]
    simp [World.constructed, hs0]
  · rw [hf]
    simp [World.constructed]

theorem step_frame (mc : (k : K) → MoveCtor (Ty k)) (c : Op Ty) (w : World Ty) (r : Ret Ty)
    (w' : World Ty) (k2 : K) (hne : c.key ≠ k2) (h : step mc c w = some (r, w')) :
    w'.statics k2 = w.statics k2 ∧
      ∀ (a : Nat) (d : Sigma Ty), w.heap[a]? = some d → d.1 = k2 → w'.heap[a]? = some d := by
  cases c with
  | init j obj =>
    rw [step_init_world mc j obj w r w' h]
    rcases init_cases mc j obj w with ⟨_, t, ht⟩ | ⟨s, _, hs⟩ | ⟨_, n, b, _, _, hf⟩
    · rw [ht]
      exact ⟨rfl, fun a d hd _ => hd⟩
    · rw [hs]
      exact ⟨rfl, fun a d hd _ => hd⟩
    · rw [hf]
      have hne' : k2 ≠ j := fun e => hne (by simp [Op.key, e])
      refine ⟨by simp [Function.update_noteq hne'], ?_⟩
      intro a d hd _
      have hlt : a < w.heap.length := (List.getElem?_eq_some.mp hd).1
      simp [List.getElem?_append_left hlt, hd]
  | getInstance j =>
    simp [step] at h
    obtain ⟨_, _, _, rfl⟩ := h
    exact ⟨rfl, fun a d hd _ => hd⟩
  | write j v =>
    obtain ⟨p, _, hp⟩ := step_write_some mc _ v w r w' h
    obtain ⟨a1, c1, _, hc1, hk1, rfl⟩ := store_eq_some w j p v w' hp
    refine ⟨rfl, ?_⟩
    intro a d hd hk
    have hab : a1 ≠ a := by
      intro e
      subst e
      rw [hc1] at hd
      have := Option.some.inj hd
      subst this
      exact hne (by simp [Op.key, ← hk1, hk])
    simp [List.getElem?_set_ne hab, hd]

theorem load_congr (w w' : World Ty) (k : K) (a : Nat) (h : w'.heap[a]? = w.heap[a]?) :
    w'.load k (some a) = w.load k (some a) := by
  simp [World.load, h]

theorem init_of_constructed (mc : (k : K) → MoveCtor (Ty k)) (cs : List (Op Ty))
    (w w' : World Ty) (k : K) (h : exec mc cs w = some w') (hk : w'.constructed k = true) :
    w.constructed k = true ∨ ∃ v, Op.init k v ∈ cs := by
  induction cs generalizing w with
  | nil =>
    simp [exec] at h
    subst h
    exact Or.inl hk
  | cons c cs ih =>
    cases hs : step mc c w with
    | none => simp [exec, hs] at h
    | some x =>
      simp [exec, hs] at h
      rcases ih x.2 h with hx | ⟨v, hv⟩
      · by_cases hw : w.constructed k = true
        · exact Or.inl hw
        · right
          have hnone : w.statics k = none := by
            simpa [World.constructed] using hw
          by_cases hkey : c.key = k
          · cases c with
            | init j obj =>
              have hj : j = k := by simpa [Op.key] using hkey
              subst hj
              exact ⟨obj, List.mem_cons_self _ _⟩
            | getInstance j =>
              exfalso
              simp [step] at hs
              obtain ⟨_, _, hx2⟩ := hs
              rw [← hx2] at hx
              exact hw hx
            | write j v =>
              exfalso
              obtain ⟨p, _, hp⟩ := step_write_some mc j v w x.1 x.2 hs
              obtain ⟨_, _, _, _, _, hx2⟩ := store_eq_some w j p v x.2 hp
              rw [hx2] at hx
              exact hw hx
          · exfalso
            have hf := (step_frame mc c w x.1 x.2 k hkey hs).1
            simp [World.constructed, hf, hnone] at hx
      · exact Or.inr ⟨v, List.mem_cons_of_mem c hv⟩

end Basic

section Claims

variable {K : Type} [DecidableEq K] {Ty : K → Type}

/-- C2, as stated, fails: for the marker type `Tracked` and `v1 = {7, true}` the call
`init(v1)` returns, and the value read through `getInstance()` is `{7, false}`, the
object the move constructor of `Tracked` built, not `v1`. And for the type `Thrower`
and `v1 = 0` the call `init(v1)` raises and leaves no holder to read a value from. -/
theorem init_then_getInstance_counterexample :
    ((init demoMove DemoKey.tracked (⟨7, true⟩ : Tracked) (World.empty 8)).1
        = Result.returned DemoKey.tracked ∧
      (init demoMove DemoKey.tracked (⟨7, true⟩ : Tracked) (World.empty 8)).2.2.wrapped
        DemoKey.tracked = some (⟨7, false⟩ : Tracked) ∧
      ¬ ((init demoMove DemoKey.tracked (⟨7, true⟩ : Tracked) (World.empty 8)).2.2.wrapped
        DemoKey.tracked = some (⟨7, true⟩ : Tracked))) ∧
    ((init demoMove DemoKey.thrower (0 : Nat) (World.empty 8)).1 = Result.raised ∧
      (init demoMove DemoKey.thrower (0 : Nat) (World.empty 8)).2.2.wrapped
        DemoKey.thrower = none) := by
  decide

/-- C2 (amended): starting from the state in which the holder of `T` is not constructed,
when the free store has room and the move constructor of `T` builds the object `b` from
`v1`, the call `init(v1)` returns and `getInstance()` on the returned holder yields a
non-null pointer whose pointee equals `b`; this is `v1` for a move constructor that
builds an object equal to its source. -/
theorem init_then_getInstance (mc : (k : K) → MoveCtor (Ty k)) (k : K) (v1 b : Ty k)
    (w0 : World Ty) (h0 : w0.statics k = none) (hroom : 0 < w0.room)
    (hb : (mc k).built v1 = some b) :
    (init mc k v1 w0).1 = Result.returned k ∧
    ∃ a, (init mc k v1 w0).2.2.getInstance k = some (some a) ∧
      (init mc k v1 w0).2.2.load k (some a) = some b := by
  obtain ⟨n, hn⟩ : ∃ n, w0.room = n + 1 := Nat.exists_eq_succ_of_ne_zero (by omega)
  rw [init_fresh mc k v1 w0 n b h0 hn hb]
  refine ⟨rfl, w0.heap.length, ?_, ?_⟩
  · simp [World.getInstance, Singleton.getInstance]
  · exact load_fresh k b w0.heap _ n

theorem init_then_getInstance_witness :
    (World.empty 8 : World demoTy).statics DemoKey.tracked = none ∧
    0 < (World.empty 8 : World demoTy).room ∧
    (demoMove DemoKey.tracked).built (⟨7, false⟩ : Tracked) = some (⟨7, false⟩ : Tracked) ∧
    (init demoMove DemoKey.tracked (⟨7, false⟩ : Tracked) (World.empty 8)).1
      = Result.returned DemoKey.tracked ∧
    ∃ a, (init demoMove DemoKey.tracked (⟨7, false⟩ : Tracked)
        (World.empty 8)).2.2.getInstance DemoKey.tracked = some (some a) ∧
      (init demoMove DemoKey.tracked (⟨7, false⟩ : Tracked) (World.empty 8)).2.2.load
        DemoKey.tracked (some a) = some (⟨7, false⟩ : Tracked) :=
  ⟨rfl, by decide, rfl,
    init_then_getInstance demoMove DemoKey.tracked (⟨7, false⟩ : Tracked)
      (⟨7, false⟩ : Tracked) (World.empty 8) rfl (by decide) rfl⟩

/-- C1, as stated, fails: for the type `Bump`, whose move constructor builds an object
holding one more than its source, `init(7)`, `init(9)` and `getInstance()` read `8`, not
`v1 = 7`. And for the type `Thrower`, whose move constructor throws when its source
holds `0`, the call `init(0)` raises, `init(5)` then constructs the holder, and
`getInstance()` reads `5`, the value of the second call, not `v1 = 0`. -/
theorem first_call_wins_counterexample :
    ((7 : Nat) ≠ 9 ∧
      (init demoMove DemoKey.bump (9 : Nat)
        (init demoMove DemoKey.bump (7 : Nat) (World.empty 8)).2.2).2.2.wrapped DemoKey.bump
        = some (8 : Nat) ∧
      ¬ ((init demoMove DemoKey.bump (9 : Nat)
        (init demoMove DemoKey.bump (7 : Nat) (World.empty 8)).2.2).2.2.wrapped DemoKey.bump
        = some (7 : Nat))) ∧
    ((0 : Nat) ≠ 5 ∧
      (init demoMove DemoKey.thrower (0 : Nat) (World.empty 8)).1 = Result.raised ∧
      (init demoMove DemoKey.thrower (5 : Nat)
        (init demoMove DemoKey.thrower (0 : Nat) (World.empty 8)).2.2).2.2.wrapped
        DemoKey.thrower = some (5 : Nat) ∧
      ¬ ((init demoMove DemoKey.thrower (5 : Nat)
        (init demoMove DemoKey.thrower (0 : Nat) (World.empty 8)).2.2).2.2.wrapped
        DemoKey.thrower = some (0 : Nat))) := by
  decide

/-- C1 (amended): first returning call wins. Starting from the state in which the holder
of `T` is not constructed, when the free store has room and the move constructor of `T`
builds the object `b` from `v1`, for `v1 ≠ v2` the call `init(v1)` returns, the call
`init(v2)` returns, and `getInstance()` then yields a non-null pointer whose pointee
equals `b` (which is `v1` for a move constructor that builds an object equal to its
source); the second `init` leaves its argument and the whole state, the wrapped value
included, as the first call left them. -/
theorem first_call_wins (mc : (k : K) → MoveCtor (Ty k)) (k : K) (v1 v2 b : Ty k)
    (w0 : World Ty) (h0 : w0.statics k = none) (_hne : v1 ≠ v2) (hroom : 0 < w0.room)
    (hb : (mc k).built v1 = some b) :
    (init mc k v1 w0).1 = Result.returned k ∧
    (init mc k v2 (init mc k v1 w0).2.2).1 = Result.returned k ∧
    (∃ a, (init mc k v2 (init mc k v1 w0).2.2).2.2.getInstance k = some (some a) ∧
      (init mc k v2 (init mc k v1 w0).2.2).2.2.load k (some a) = some b) ∧
    (init mc k v2 (init mc k v1 w0).2.2).2.1 = v2 ∧
    (init mc k v2 (init mc k v1 w0).2.2).2.2 = (init mc k v1 w0).2.2 ∧
    (init mc k v2 (init mc k v1 w0).2.2).2.2.wrapped k = (init mc k v1 w0).2.2.wrapped k ∧
    (init mc k v1 w0).2.2.wrapped k = some b := by
  obtain ⟨n, hn⟩ : ∃ n, w0.room = n + 1 := Nat.exists_eq_succ_of_ne_zero (by omega)
  have h1 : (init mc k v1 w0).2.2.statics k = some ⟨some w0.heap.length⟩ := by
    simp [init_fresh mc k v1 w0 n b h0 hn hb]
  have h2 := init_again mc k v2 (init mc k v1 w0).2.2 _ h1
  rw [h2]
  rw [init_fresh mc k v1 w0 n b h0 hn hb]
  refine ⟨rfl, rfl, ⟨w0.heap.length, ?_, ?_⟩, rfl, rfl, rfl, ?_⟩
  · simp [World.getInstance, Singleton.getInstance]
  · exact load_fresh k b w0.heap _ n
  · exact wrapped_fresh k b w0 n

theorem first_call_wins_witness :
    (World.empty 8 : World demoTy).statics DemoKey.int = none ∧ (3 : Nat) ≠ 5 ∧
    0 < (World.empty 8 : World demoTy).room ∧
    (demoMove DemoKey.int).built (3 : Nat) = some (3 : Nat) ∧
    (init demoMove DemoKey.int (5 : Nat)
      (init demoMove DemoKey.int (3 : Nat) (World.empty 8)).2.2).2.2.wrapped DemoKey.int
      = (init demoMove DemoKey.int (3 : Nat) (World.empty 8)).2.2.wrapped DemoKey.int ∧
    (init demoMove DemoKey.int (3 : Nat) (World.empty 8)).2.2.wrapped DemoKey.int
      = some (3 : Nat) :=
  ⟨rfl, by decide, by decide, rfl,
    (first_call_wins demoMove DemoKey.int (3 : Nat) (5 : Nat) (3 : Nat) (World.empty 8) rfl
      (by decide) (by decide) rfl).2.2.2.2.2⟩

/-- C10: a call `init(v2)` made when the holder of `T` is already constructed leaves the
argument object with the value `v2` it had (it is not moved from), returns the reference
to the existing holder and leaves the state unchanged: the initializer of the static,
the only place that moves from the argument, is not run again. -/
theorem init_again_keeps_argument (mc : (k : K) → MoveCtor (Ty k)) (k : K) (v2 : Ty k)
    (w : World Ty) (hw : w.constructed k = true) :
    (init mc k v2 w).2.1 = v2 ∧ (init mc k v2 w).1 = Result.returned k ∧
      (init mc k v2 w).2.2 = w := by
  obtain ⟨s, hs⟩ := Option.isSome_iff_exists.mp hw
  simp [init_again mc k v2 w s hs]

theorem init_again_keeps_argument_witness :
    (init demoMove DemoKey.tracked (⟨1, false⟩ : Tracked)
      (World.empty 8)).2.2.constructed DemoKey.tracked = true ∧
    (init demoMove DemoKey.tracked (⟨2, false⟩ : Tracked)
        (init demoMove DemoKey.tracked (⟨1, false⟩ : Tracked) (World.empty 8)).2.2).2.1
      = (⟨2, false⟩ : Tracked) :=
  ⟨rfl, (init_again_keeps_argument demoMove DemoKey.tracked (⟨2, false⟩ : Tracked)
    (init demoMove DemoKey.tracked (⟨1, false⟩ : Tracked) (World.empty 8)).2.2 rfl).1⟩

/-- C8, as stated, fails: for the marker type `Tracked` and `v1 = {4, true}` the first
call `init(v1)` returns and the holder holds `{4, false}`, which is not the original
`v1`. And when the free store has no room, the first call `init({7, false})` raises
`std::bad_alloc` before the move constructor runs: the argument is not marked as moved
from and no holder holds a value. -/
theorem init_moves_from_argument_counterexample :
    ((init demoMove DemoKey.tracked (⟨4, true⟩ : Tracked) (World.empty 8)).1
        = Result.returned DemoKey.tracked ∧
      (init demoMove DemoKey.tracked (⟨4, true⟩ : Tracked) (World.empty 8)).2.2.wrapped
        DemoKey.tracked = some (⟨4, false⟩ : Tracked) ∧
      ¬ (Tracked.moved (init demoMove DemoKey.tracked (⟨4, true⟩ : Tracked)
          (World.empty 8)).2.1 = true ∧
        (init demoMove DemoKey.tracked (⟨4, true⟩ : Tracked) (World.empty 8)).2.2.wrapped
          DemoKey.tracked = some (⟨4, true⟩ : Tracked))) ∧
    ((init demoMove DemoKey.tracked (⟨7, false⟩ : Tracked) (World.empty 0)).1
        = Result.raised ∧
      Tracked.moved (init demoMove DemoKey.tracked (⟨7, false⟩ : Tracked)
        (World.empty 0)).2.1 = false ∧
      (init demoMove DemoKey.tracked (⟨7, false⟩ : Tracked) (World.empty 0)).2.2.wrapped
        DemoKey.tracked = none) := by
  decide

/-- C8 (amended): ownership transfer. For a wrapped type with observable move effects
(its move constructor leaves the source with the moved-from marker `moved` set),
starting from the state in which the holder is not constructed, when the free store has
room and the move constructor builds the object `b` from `v1`, the first call `init(v1)`
returns, the argument object of the caller is then marked as moved from, and the value
held by the holder equals `b`; this is the original `v1` for a move constructor that
builds an object equal to its source. -/
theorem init_moves_from_argument (mc : (k : K) → MoveCtor (Ty k)) (k : K) (v1 b : Ty k)
    (w0 : World Ty) (h0 : w0.statics k = none) (hroom : 0 < w0.room)
    (hb : (mc k).built v1 = some b) (moved : Ty k → Bool)
    (hmark : ∀ t, moved ((mc k).residue t) = true) :
    (init mc k v1 w0).1 = Result.returned k ∧
    moved (init mc k v1 w0).2.1 = true ∧ (init mc k v1 w0).2.2.wrapped k = some b := by
  obtain ⟨n, hn⟩ : ∃ n, w0.room = n + 1 := Nat.exists_eq_succ_of_ne_zero (by omega)
  rw [init_fresh mc k v1 w0 n b h0 hn hb]
  exact ⟨rfl, hmark v1, wrapped_fresh k b w0 n⟩

theorem init_moves_from_argument_witness :
    (World.empty 8 : World demoTy).statics DemoKey.tracked = none ∧
    0 < (World.empty 8 : World demoTy).room ∧
    (demoMove DemoKey.tracked).built (⟨7, false⟩ : Tracked) = some (⟨7, false⟩ : Tracked) ∧
    (∀ t : Tracked, Tracked.moved ((demoMove DemoKey.tracked).residue t) = true) ∧
    (init demoMove DemoKey.tracked (⟨7, false⟩ : Tracked) (World.empty 8)).1
      = Result.returned DemoKey.tracked ∧
    Tracked.moved (init demoMove DemoKey.tracked (⟨7, false⟩ : Tracked)
      (World.empty 8)).2.1 = true ∧
    (init demoMove DemoKey.tracked (⟨7, false⟩ : Tracked) (World.empty 8)).2.2.wrapped
      DemoKey.tracked = some (⟨7, false⟩ : Tracked) :=
  ⟨rfl, by decide, rfl, fun _ => rfl,
    init_moves_from_argument demoMove DemoKey.tracked (⟨7, false⟩ : Tracked)
      (⟨7, false⟩ : Tracked) (World.empty 8) rfl (by decide) rfl Tracked.moved
      (fun _ => rfl)⟩

/-- C5: idempotence of the accessor. After one call `init(v)` that returned, made on a
holder that was not constructed, any number `N` of successive `getInstance()` calls all
return the same non-null pointer (the address allocated by that `init`), and each leaves
the state exactly as `init` left it. -/
theorem getInstance_idempotent (mc : (k : K) → MoveCtor (Ty k)) (k : K) (v : Ty k)
    (w0 : World Ty) (h0 : w0.statics k = none)
    (hret : (init mc k v w0).1 = Result.returned k) (N : Nat) :
    trace mc (Op.init k v :: List.replicate N (Op.getInstance k)) w0 =
      some ((Ret.holder k k ((mc k).residue v), (init mc k v w0).2.2) ::
        List.replicate N (Ret.pointer (some w0.heap.length), (init mc k v w0).2.2)) := by
  obtain ⟨n, b, _, _, hf⟩ := init_returned mc k v w0 h0 hret
  have h1 : (init mc k v w0).2.2.statics k = some ⟨some w0.heap.length⟩ := by
    simp [hf]
  have ht := trace_settled mc k ⟨some w0.heap.length⟩ (List.replicate N (Op.getInstance k))
    (init mc k v w0).2.2 h1 (by
      intro c hc
      rw [List.eq_of_mem_replicate hc]
      simp [Op.onHolder])
  have hsnd : (init mc k v w0).2.1 = (mc k).residue v := by simp [hf]
  simp only [trace, step_init_returned mc k v w0 hret, ht, hsnd, Option.map_some']
  simp [settledRet, Singleton.getInstance]

theorem getInstance_idempotent_witness :
    (World.empty 8 : World demoTy).statics DemoKey.int = none ∧
    (init demoMove DemoKey.int (4 : Nat) (World.empty 8)).1 = Result.returned DemoKey.int ∧
    trace demoMove (Op.init DemoKey.int (4 : Nat) ::
        List.replicate 3 (Op.getInstance DemoKey.int)) (World.empty 8 : World demoTy) =
      some ((Ret.holder DemoKey.int DemoKey.int ((demoMove DemoKey.int).residue (4 : Nat)),
          (init demoMove DemoKey.int (4 : Nat) (World.empty 8)).2.2) ::
        List.replicate 3 (Ret.pointer (some (World.empty 8 : World demoTy).heap.length),
          (init demoMove DemoKey.int (4 : Nat) (World.empty 8)).2.2)) :=
  ⟨rfl, rfl, getInstance_idempotent demoMove DemoKey.int (4 : Nat) (World.empty 8) rfl rfl 3⟩

/-- C6, as stated, fails: for the type `Thrower`, whose move constructor throws when its
source holds `0`, in the sequence `init(0)`, `init(0)`, `init(0)` the second and the
third call raise as the first did: each runs the initializer of the still unconstructed
static again. And in the sequence `init(0)`, `init(5)` it is the second call that
writes to the holder: the first leaves it unconstructed, the second constructs it. -/
theorem init_returns_same_holder_counterexample :
    trace demoMove
        [Op.init DemoKey.thrower (0 : Nat), Op.init DemoKey.thrower (0 : Nat),
          Op.init DemoKey.thrower (0 : Nat)] (World.empty 8) =
      some [(Ret.raised DemoKey.thrower (0 : Nat), World.empty 8),
        (Ret.raised DemoKey.thrower (0 : Nat), World.empty 8),
        (Ret.raised DemoKey.thrower (0 : Nat), World.empty 8)] ∧
    ((init demoMove DemoKey.thrower (0 : Nat) (World.empty 8)).2.2.constructed
        DemoKey.thrower = false ∧
      (init demoMove DemoKey.thrower (5 : Nat)
        (init demoMove DemoKey.thrower (0 : Nat) (World.empty 8)).2.2).2.2.constructed
        DemoKey.thrower = true) :=
  ⟨rfl, by decide⟩

/-- C6 (amended): in a sequence of `init` calls with arbitrary arguments, started while
the holder of `T` is not constructed, every call whose initializer exits by an exception
raises it and leaves the state unchanged, the holder unconstructed; the first call that
returns constructs the holder; every call after it returns a reference to that same
holder and leaves its argument and the whole state, the holder included, exactly as they
were. -/
theorem init_returns_same_holder (mc : (k : K) → MoveCtor (Ty k)) (k : K) (w0 : World Ty)
    (h0 : w0.statics k = none) (pre : List (Ty k))
    (hpre : ∀ u ∈ pre, (init mc k u w0).1 = Result.raised) (v : Ty k)
    (hret : (init mc k v w0).1 = Result.returned k) (vs : List (Ty k)) :
    trace mc (pre.map (Op.init k) ++ Op.init k v :: vs.map (Op.init k)) w0 =
      some (pre.map (fun u => (Ret.raised k (init mc k u w0).2.1, w0)) ++
        (Ret.holder k k ((mc k).residue v), (init mc k v w0).2.2) ::
          vs.map (fun u => (Ret.holder k k u, (init mc k v w0).2.2))) ∧
    (init mc k v w0).2.2.statics k = some ⟨some w0.heap.length⟩ := by
  obtain ⟨n, b, _, _, hf⟩ := init_returned mc k v w0 h0 hret
  have h1 : (init mc k v w0).2.2.statics k = some ⟨some w0.heap.length⟩ := by
    simp [hf]
  have ht := trace_settled mc k ⟨some w0.heap.length⟩ (vs.map (Op.init k))
    (init mc k v w0).2.2 h1 (by
      intro c hc
      obtain ⟨u, _, rfl⟩ := List.mem_map.mp hc
      simp [Op.onHolder])
  have hsnd : (init mc k v w0).2.1 = (mc k).residue v := by simp [hf]
  refine ⟨?_, h1⟩
  rw [trace_raised mc k w0 pre hpre]
  simp only [trace, step_init_returned mc k v w0 hret, ht, hsnd, Option.map_some']
  simp [settledRet, Function.comp_def]

theorem init_returns_same_holder_witness :
    (World.empty 8 : World demoTy).statics DemoKey.thrower = none ∧
    (∀ u ∈ [(0 : Nat), (0 : Nat)],
      (init demoMove DemoKey.thrower u (World.empty 8)).1 = Result.raised) ∧
    (init demoMove DemoKey.thrower (4 : Nat) (World.empty 8)).1
      = Result.returned DemoKey.thrower ∧
    (trace demoMove ([(0 : Nat), (0 : Nat)].map (Op.init DemoKey.thrower) ++
        Op.init DemoKey.thrower (4 : Nat) ::
          [(5 : Nat), (0 : Nat)].map (Op.init DemoKey.thrower))
        (World.empty 8 : World demoTy) =
      some ([(0 : Nat), (0 : Nat)].map (fun u => (Ret.raised DemoKey.thrower
            (init demoMove DemoKey.thrower u (World.empty 8)).2.1, World.empty 8)) ++
        (Ret.holder DemoKey.thrower DemoKey.thrower
            ((demoMove DemoKey.thrower).residue (4 : Nat)),
          (init demoMove DemoKey.thrower (4 : Nat) (World.empty 8)).2.2) ::
          [(5 : Nat), (0 : Nat)].map (fun u => (Ret.holder DemoKey.thrower DemoKey.thrower u,
            (init demoMove DemoKey.thrower (4 : Nat) (World.empty 8)).2.2))) ∧
    (init demoMove DemoKey.thrower (4 : Nat) (World.empty 8)).2.2.statics DemoKey.thrower
      = some ⟨some (World.empty 8 : World demoTy).heap.length⟩) :=
  ⟨rfl, by decide, rfl,
    init_returns_same_holder demoMove DemoKey.thrower (World.empty 8) rfl
      [(0 : Nat), (0 : Nat)] (by decide) (4 : Nat) rfl [(5 : Nat), (0 : Nat)]⟩

/-- C3, as stated, fails: for the type `Thrower`, whose move constructor throws when its
source holds `0`, the first call `init(0)` raises and leaves the holder Uninitialized;
the transition to Initialized happens at the second call, `init(5)`. -/
theorem holder_two_state_machine_counterexample :
    (World.empty 8 : World demoTy).constructed DemoKey.thrower = false ∧
    (init demoMove DemoKey.thrower (0 : Nat) (World.empty 8)).1 = Result.raised ∧
    (init demoMove DemoKey.thrower (0 : Nat) (World.empty 8)).2.2.constructed
      DemoKey.thrower = false ∧
    (init demoMove DemoKey.thrower (5 : Nat)
      (init demoMove DemoKey.thrower (0 : Nat) (World.empty 8)).2.2).2.2.constructed
      DemoKey.thrower = true := by
  decide

/-- C3 (amended): the holder of `T` is a two-state machine. From a state in which it is
not constructed, every `init` call whose initializer exits by an exception leaves it
Uninitialized and the state unchanged, with no transition. The first `init` call that
returns takes it from Uninitialized to Initialized; in every sequence of `init` and
`getInstance` calls that follows, every call returns, every later state still has the
same holder object owning the same non-null address with the same wrapped object, and
the transition Uninitialized → Initialized occurs exactly once along the whole
sequence. -/
theorem holder_two_state_machine (mc : (k : K) → MoveCtor (Ty k)) (k : K) (w0 : World Ty)
    (h0 : w0.statics k = none) (pre : List (Ty k))
    (hpre : ∀ u ∈ pre, (init mc k u w0).1 = Result.raised) :
    (trace mc (pre.map (Op.init k)) w0 =
        some (pre.map (fun u => (Ret.raised k (init mc k u w0).2.1, w0))) ∧
      constructions k w0
        ((pre.map (fun u => (Ret.raised k (init mc k u w0).2.1, w0))).map Prod.snd) = 0) ∧
    ∀ (v : Ty k) (rest : List (Op Ty)), (init mc k v w0).1 = Result.returned k →
      (∀ c ∈ rest, c.onHolder k = true) →
      ∃ r1 w1 tl,
        trace mc (pre.map (Op.init k) ++ Op.init k v :: rest) w0 =
          some (pre.map (fun u => (Ret.raised k (init mc k u w0).2.1, w0))
            ++ (r1, w1) :: tl) ∧
        tl.length = rest.length ∧
        w0.constructed k = false ∧
        w1.constructed k = true ∧
        w1.statics k = some ⟨some w0.heap.length⟩ ∧
        (∃ b, (mc k).built v = some b ∧ w1.wrapped k = some b) ∧
        (∀ x ∈ tl, x.2.constructed k = true ∧ x.2.statics k = w1.statics k ∧
          x.2.heap = w1.heap ∧ x.2.wrapped k = w1.wrapped k) ∧
        constructions k w0
          ((pre.map (fun u => (Ret.raised k (init mc k u w0).2.1, w0))
            ++ (r1, w1) :: tl).map Prod.snd) = 1 := by
  have hc0 : w0.constructed k = false := by simp [World.constructed, h0]
  have hstut : ∀ x ∈ (pre.map (fun u => (Ret.raised k (init mc k u w0).2.1, w0))).map
      Prod.snd, x = w0 := by
    intro x hx
    obtain ⟨y, hy, rfl⟩ := List.mem_map.mp hx
    obtain ⟨u, _, rfl⟩ := List.mem_map.mp hy
    rfl
  refine ⟨⟨?_, ?_⟩, ?_⟩
  · have := trace_raised mc k w0 pre hpre []
    simpa [trace] using this
  · have := constructions_stutter k w0 _ [] hstut
    simpa [constructions] using this
  · intro v rest hret hrest
    obtain ⟨n, b, _, hb, hf⟩ := init_returned mc k v w0 h0 hret
    have h1 : (init mc k v w0).2.2.statics k = some ⟨some w0.heap.length⟩ := by
      simp [hf]
    have hc1 : (init mc k v w0).2.2.constructed k = true := by simp [World.constructed, h1]
    have hw1 : (init mc k v w0).2.2.wrapped k = some b := by
      rw [hf]
      exact wrapped_fresh k b w0 n
    have ht := trace_settled mc k ⟨some w0.heap.length⟩ rest (init mc k v w0).2.2 h1 hrest
    refine ⟨Ret.holder k k (init mc k v w0).2.1, (init mc k v w0).2.2,
      rest.map (fun c => (settledRet ⟨some w0.heap.length⟩ c, (init mc k v w0).2.2)),
      ?_, by simp, hc0, hc1, h1, ⟨b, hb, hw1⟩, ?_, ?_⟩
    · rw [trace_raised mc k w0 pre hpre]
      simp only [trace, step_init_returned mc k v w0 hret, ht, Option.map_some']
    · intro x hx
      obtain ⟨c, _, rfl⟩ := List.mem_map.mp hx
      exact ⟨hc1, rfl, rfl, rfl⟩
    · have hz := constructions_settled k (init mc k v w0).2.2
        ((rest.map (fun c => (settledRet ⟨some w0.heap.length⟩ c,
          (init mc k v w0).2.2))).map Prod.snd) hc1 (by
          intro x hx
          obtain ⟨y, hy, rfl⟩ := List.mem_map.mp hx
          obtain ⟨c, _, rfl⟩ := List.mem_map.mp hy
          rfl)
      rw [List.map_append, constructions_stutter k w0 _ _ hstut]
      simp only [List.map_cons, constructions, hc0, hc1, hz]
      simp

theorem holder_two_state_machine_witness :
    (World.empty 8 : World demoTy).statics DemoKey.thrower = none ∧
    (∀ u ∈ [(0 : Nat), (0 : Nat)],
      (init demoMove DemoKey.thrower u (World.empty 8)).1 = Result.raised) ∧
    (init demoMove DemoKey.thrower (5 : Nat) (World.empty 8)).1
      = Result.returned DemoKey.thrower ∧
    (∀ c ∈ demoThrowerRest, Op.onHolder DemoKey.thrower c = true) ∧
    ∃ r1 w1 tl,
      trace demoMove ([(0 : Nat), (0 : Nat)].map (Op.init DemoKey.thrower) ++
          Op.init DemoKey.thrower (5 : Nat) :: demoThrowerRest) (World.empty 8) =
        some ([(0 : Nat), (0 : Nat)].map (fun u => (Ret.raised DemoKey.thrower
            (init demoMove DemoKey.thrower u (World.empty 8)).2.1, World.empty 8))
          ++ (r1, w1) :: tl) ∧
      tl.length = demoThrowerRest.length ∧
      (World.empty 8 : World demoTy).constructed DemoKey.thrower = false ∧
      w1.constructed DemoKey.thrower = true ∧
      w1.statics DemoKey.thrower = some ⟨some (World.empty 8 : World demoTy).heap.length⟩ ∧
      (∃ b, (demoMove DemoKey.thrower).built (5 : Nat) = some b ∧
        w1.wrapped DemoKey.thrower = some b) ∧
      (∀ x ∈ tl, x.2.constructed DemoKey.thrower = true ∧
        x.2.statics DemoKey.thrower = w1.statics DemoKey.thrower ∧
        x.2.heap = w1.heap ∧ x.2.wrapped DemoKey.thrower = w1.wrapped DemoKey.thrower) ∧
      constructions DemoKey.thrower (World.empty 8 : World demoTy)
        (([(0 : Nat), (0 : Nat)].map (fun u => (Ret.raised DemoKey.thrower
            (init demoMove DemoKey.thrower u (World.empty 8)).2.1, World.empty 8))
          ++ (r1, w1) :: tl).map Prod.snd) = 1 :=
  ⟨rfl, by decide, rfl, by simp [demoThrowerRest, Op.onHolder],
    (holder_two_state_machine demoMove DemoKey.thrower (World.empty 8) rfl
      [(0 : Nat), (0 : Nat)] (by decide)).2 (5 : Nat) demoThrowerRest rfl
      (by simp [demoThrowerRest, Op.onHolder])⟩

/-- C4: in every state a program reaches from start-up, (a) once a call of `init` for
`T` has returned, `getInstance()` on the holder of `T` returns, returns a non-null
pointer to a live object of type `T`, and changes nothing; (b) every holder that exists
was constructed by a call of `init` and owns a non-null pointer, so `getInstance()` is
never called on a holder whose pointer is null. -/
theorem getInstance_never_null (mc : (k : K) → MoveCtor (Ty k)) (room : Nat)
    (cs : List (Op Ty)) (w : World Ty) (hrun : exec mc cs (World.empty room) = some w)
    (k : K) :
    ((∃ cs1 v cs2 wa, cs = cs1 ++ Op.init k v :: cs2 ∧
        exec mc cs1 (World.empty room) = some wa ∧
        (init mc k v wa).1 = Result.returned k) →
      ∃ a, step mc (Op.getInstance k) w = some (Ret.pointer (some a), w) ∧
        (w.load k (some a)).isSome = true) ∧
    (∀ s, w.statics k = some s → (∃ v, Op.init k v ∈ cs) ∧ s.getInstance ≠ none ∧
      ∃ a, step mc (Op.getInstance k) w = some (Ret.pointer (some a), w) ∧
        (w.load k (some a)).isSome = true) := by
  have hwf : w.WF := WF_exec mc cs (World.empty room) w (WF_empty room) hrun
  have hget : ∀ s, w.statics k = some s →
      ∃ a, step mc (Op.getInstance k) w = some (Ret.pointer (some a), w) ∧
        (w.load k (some a)).isSome = true := by
    intro s hs
    obtain ⟨a, c, ha, hca, hk⟩ := hwf k s hs
    refine ⟨a, ?_, ?_⟩
    · rw [step_getInstance mc k w s hs]
      simp [Singleton.getInstance, ha]
    · simp [World.load, hca, hk]
  refine ⟨?_, ?_⟩
  · rintro ⟨cs1, v, cs2, wa, hcs, hwa, hret⟩
    subst hcs
    rw [exec_append, hwa] at hrun
    simp only [Option.some_bind, exec, step_init_returned mc k v wa hret] at hrun
    have hc := constructed_exec mc cs2 _ w k hrun (init_returned_constructed mc k v wa hret)
    obtain ⟨s, hs⟩ := Option.isSome_iff_exists.mp hc
    exact hget s hs
  · intro s hs
    refine ⟨?_, ?_, hget s hs⟩
    · have hc : w.constructed k = true := by simp [World.constructed, hs]
      rcases init_of_constructed mc cs (World.empty room) w k hrun hc with h0 | h1
      · simp [World.constructed, World.empty] at h0
      · exact h1
    · obtain ⟨a, c, ha, _, _⟩ := hwf k s hs
      simp [Singleton.getInstance, ha]

theorem getInstance_never_null_witness :
    exec demoMove demoCalls (World.empty 8) = some demoWorld ∧
    (∃ cs1 v cs2 wa, demoCalls = cs1 ++ Op.init DemoKey.tracked v :: cs2 ∧
        exec demoMove cs1 (World.empty 8) = some wa ∧
        (init demoMove DemoKey.tracked v wa).1 = Result.returned DemoKey.tracked) ∧
    (∃ a, step demoMove (Op.getInstance DemoKey.tracked) demoWorld
        = some (Ret.pointer (some a), demoWorld) ∧
      (demoWorld.load DemoKey.tracked (some a)).isSome = true) :=
  ⟨demoWorld_exec, demoCalls_split,
    (getInstance_never_null demoMove 8 demoCalls demoWorld demoWorld_exec
      DemoKey.tracked).1 demoCalls_split⟩

/-- C7: uniqueness per type. In every state a program reaches from start-up, for two
distinct instantiations `T1` and `T2`, an action on the holder of `T1` (a call of
`init`, a call of `getInstance`, or an assignment to the wrapped value of `T1` through
the pointer `getInstance` returns) leaves the holder of `T2` as it was, constructed or
not, and leaves the wrapped value of `T2` unchanged. -/
theorem holders_independent (mc : (k : K) → MoveCtor (Ty k)) (room : Nat)
    (cs : List (Op Ty)) (w : World Ty) (hrun : exec mc cs (World.empty room) = some w)
    (k1 k2 : K) (hne : k1 ≠ k2) (c : Op Ty) (hc : c.key = k1) (r : Ret Ty) (w' : World Ty)
    (hstep : step mc c w = some (r, w')) :
    w'.statics k2 = w.statics k2 ∧ w'.constructed k2 = w.constructed k2 ∧
      w'.wrapped k2 = w.wrapped k2 := by
  have hwf : w.WF := WF_exec mc cs (World.empty room) w (WF_empty room) hrun
  obtain ⟨hst, hheap⟩ := step_frame mc c w r w' k2 (by rw [hc]; exact hne) hstep
  refine ⟨hst, by simp [World.constructed, hst], ?_⟩
  cases hs : w.statics k2 with
  | none => simp [World.wrapped, World.getInstance, hst, hs]
  | some s =>
    obtain ⟨a, d, ha, hd, hk⟩ := hwf k2 s hs
    have hl := load_congr w w' k2 a (by rw [hheap a d hd hk, hd])
    simp [World.wrapped, World.getInstance, hst, hs, Singleton.getInstance, ha, hl]

theorem holders_independent_witness :
    exec demoMove demoCalls (World.empty 8) = some demoWorld ∧
    DemoKey.int ≠ DemoKey.tracked ∧
    Op.key (Op.write DemoKey.int (10 : Nat) : Op demoTy) = DemoKey.int ∧
    step demoMove (Op.write DemoKey.int (10 : Nat)) demoWorld
      = some (Ret.done,
        ⟨demoWorld.heap.set 0 ⟨DemoKey.int, (10 : Nat)⟩, demoWorld.statics,
          demoWorld.room⟩) ∧
    (World.mk (demoWorld.heap.set 0 ⟨DemoKey.int, (10 : Nat)⟩) demoWorld.statics
      demoWorld.room).statics DemoKey.tracked = demoWorld.statics DemoKey.tracked ∧
    (World.mk (demoWorld.heap.set 0 ⟨DemoKey.int, (10 : Nat)⟩) demoWorld.statics
      demoWorld.room).constructed DemoKey.tracked = demoWorld.constructed DemoKey.tracked ∧
    (World.mk (demoWorld.heap.set 0 ⟨DemoKey.int, (10 : Nat)⟩) demoWorld.statics
      demoWorld.room).wrapped DemoKey.tracked = demoWorld.wrapped DemoKey.tracked :=
  ⟨demoWorld_exec, by decide, rfl, rfl,
    holders_independent demoMove 8 demoCalls demoWorld demoWorld_exec DemoKey.int
      DemoKey.tracked (by decide) (Op.write DemoKey.int (10 : Nat)) rfl Ret.done
      ⟨demoWorld.heap.set 0 ⟨DemoKey.int, (10 : Nat)⟩, demoWorld.statics, demoWorld.room⟩
      rfl⟩

end Claims

end SingletonModel
